import Mathlib

/-!
Verification of the market-data ingestion scraper
(`src/scraper/div_link_handler.py`, `src/scraper/table_scraper.py`).

The Python code is shallowly embedded: pure helpers become Lean functions
over `List Char` / `String`, the browser and the filesystem become explicit
environment values, and the per-commodity driver loop becomes structural
recursion over the list of catalog indices it visits.
-/

namespace MarketScraper

/-! ## Python string primitives

`sanitize_sheet_name` (div_link_handler.py lines 116-123) is built from
`str.strip`, `str.lower`, `re.sub(r"[^\w\s-]", "")` and
`re.sub(r"\s+", "_")`.  Python's `\s` is the six ASCII whitespace
characters; `\w` is alphanumerics plus underscore (ASCII inputs assumed).
-/

def isPySpace (c : Char) : Bool :=
  c = ' ' || c = '\t' || c = '\n' || c = '\r' || c = '\x0b' || c = '\x0c'

def isPyWord (c : Char) : Bool :=
  c.isAlphanum || c = '_'

/-- Python `str.strip()`: drop whitespace from both ends. -/
def pyStrip (s : List Char) : List Char :=
  ((s.dropWhile isPySpace).reverse.dropWhile isPySpace).reverse

/-- Python `str.lower()` (ASCII). -/
def pyLower (s : List Char) : List Char :=
  s.map Char.toLower

/-- Model of `re.sub(r"[^\w\s-]", "", s)`: keep word chars, whitespace and hyphens. -/
def removeSpecials (s : List Char) : List Char :=
  s.filter (fun c => isPyWord c || isPySpace c || c = '-')

/-- Helper for `re.sub(r"\s+", "_", s)`: the flag records whether we are
inside a whitespace run whose replacement underscore was already emitted. -/
def subSpaceRunsAux : Bool → List Char → List Char
  | _, [] => []
  | inRun, c :: rest =>
    if isPySpace c then
      if inRun then subSpaceRunsAux true rest
      else '_' :: subSpaceRunsAux true rest
    else c :: subSpaceRunsAux false rest

/-- Model of `re.sub(r"\s+", "_", s)`: each maximal whitespace run becomes one `_`. -/
def subSpaceRuns (s : List Char) : List Char :=
  subSpaceRunsAux false s

/-- Model of `sanitize_sheet_name` (div_link_handler.py lines 116-123):
strip, lower, remove special characters, replace whitespace runs by `_`,
truncate to 100 characters. -/
def sanitize_sheet_name (name : String) : String :=
  String.mk ((subSpaceRuns (removeSpecials (pyLower (pyStrip name.data)))).take 100)

example : sanitize_sheet_name "Hass Avocados / Extra!!" = "hass_avocados_extra" := by decide

/-! ## Substring test

Python's `needle in haystack` on strings, used by `analyze_summary_table`
for the total/summary row filter. -/

/-- Python `needle in hay` on strings: some suffix of `hay` starts with
`needle`. -/
def containsSub (needle : List Char) : List Char → Bool
  | [] => needle.isEmpty
  | c :: rest => needle.isPrefixOf (c :: rest) || containsSub needle rest

/-! ## Flow classifier (`analyze_summary_table`, lines 223-260)

A summary table is modelled by the list of its body rows' texts; `none`
stands for a page on which `find_element("table.alltable")` raises (the
function catches the error and returns the untouched default analysis). -/

structure TableAnalysis where
  data_rows : Nat
  is_single_container : Bool
  table_structure : String
deriving DecidableEq

/-- The row filter of `analyze_summary_table`: a row is skipped when its
lower-cased text contains `"total"` or `"summary"`. -/
def isTotalOrSummaryRow (row : String) : Bool :=
  containsSub "total".data (pyLower row.data) || containsSub "summary".data (pyLower row.data)

/-- The counting loop of `analyze_summary_table` (lines 238-243). -/
def countDataRows (rows : List String) : Nat :=
  rows.foldl (fun data_rows row => if isTotalOrSummaryRow row then data_rows else data_rows + 1) 0

/-- Model of `analyze_summary_table` (lines 223-260). -/
def analyze_summary_table (table : Option (List String)) : TableAnalysis :=
  match table with
  | none => { data_rows := 0, is_single_container := false, table_structure := "unknown" }
  | some rows =>
    let data_rows := countDataRows rows
    if data_rows <= 1 then
      { data_rows := data_rows, is_single_container := true, table_structure := "single_container" }
    else
      { data_rows := data_rows, is_single_container := false, table_structure := "multi_container" }

/-! ## Table parser and persistence
(`table_scraper.py`, and `scrape_and_save_table` lines 263-296)

Markup is modelled by the pieces the parser inspects: the optional
`table.alltable` element with its optional `thead` (list of
`th.header` texts) and optional `tbody` (list of rows, each with an
optional `td.tleft2` first cell and the `td.tleft` cells). -/

structure MarkupRow where
  tleft2 : Option String
  tleft : List String
deriving DecidableEq

structure MarkupTable where
  thead : Option (List String)
  tbody : Option (List MarkupRow)
deriving DecidableEq

structure DataFrame where
  columns : List String
  rows : List (List String)
deriving DecidableEq

/-- Model of `table_scraper` (table_scraper.py lines 4-43): `none` when the table,
its `thead` or its `tbody` is missing; otherwise the header texts and, per
row, the `tleft2` cell (when present) followed by the `tleft` cells. -/
def table_scraper (page : Option MarkupTable) : Option DataFrame :=
  match page with
  | none => none
  | some t =>
    match t.thead, t.tbody with
    | some headers, some body =>
      some { columns := headers,
             rows := body.map (fun r =>
               (match r.tleft2 with | some c => [c] | none => []) ++ r.tleft) }
    | some _, none => none
    | none, _ => none

/-- Model of `get_table_row_count` (lines 170-177): number of `tbody tr` elements,
`0` when none are found. -/
def get_table_row_count (page : Option MarkupTable) : Nat :=
  match page with
  | none => 0
  | some t =>
    match t.tbody with
    | none => 0
    | some body => body.length

/-- The metadata columns added by `scrape_and_save_table` (lines 281-285). -/
def appendMeta (df : DataFrame) (scraped_date commodity_name link_type run_id : String) :
    DataFrame :=
  { columns := df.columns ++ ["scrape_date", "commodity", "link_type", "ingestion_run_id"],
    rows := df.rows.map (fun r => r ++ [scraped_date, commodity_name, link_type, run_id]) }

/-- Model of `scrape_and_save_table` (lines 263-296).  Returns the file write it
performs (`none` when the parsed table is absent or empty) together with
its Python return value, which on every path is the row count captured
before scraping. -/
def scrape_and_save_table (page : Option MarkupTable)
    (scraped_date commodity_name link_type run_id : String) :
    Option (String × DataFrame) × Nat :=
  let previous_rows := get_table_row_count page
  match table_scraper page with
  | none => (none, previous_rows)
  | some df =>
    if df.rows.isEmpty then (none, previous_rows)
    else
      let df := appendMeta df scraped_date commodity_name link_type run_id
      let safe_name := sanitize_sheet_name commodity_name
      ((some ("data/raw/joburg_market_" ++ safe_name ++ "_" ++ link_type ++ "_"
          ++ scraped_date ++ ".csv", df)), previous_rows)

/-- True when `table_scraper` yields `None` or an empty frame — the
condition under which `scrape_and_save_table` writes nothing (line 273). -/
def parsedAbsentOrEmpty (page : Option MarkupTable) : Bool :=
  match table_scraper page with
  | none => true
  | some df => df.rows.isEmpty

/-! ## Navigation flows (lines 317-457)

A flow run is driven by the page environment: which links
`find_link_by_text` returns and which browser steps succeed.  Each Boolean
mirrors one fallible region of the source:
* `containerClickOk` — `safe_click` on the container link (single flow:
  lines 331-334; multi: line 410);
* `containerChangeOk` — `wait_for_table_change` (multi flow only, line 413;
  the single flow uses an unconditional sleep which cannot fail);
* `containerScrapeOk` — `scrape_and_save_table` for the container view;
* `containerReturnOk` — the back/re-enter-frame/re-select sequence after
  the container scrape (multi flow lines 418-426; in the single flow a
  failure there is caught by the outer handler and the flow continues);
* `varietyPresent` — `find_link_by_text(VARIETY_LINK_TEXT)` is non-null;
* `varietyClickOk` — `safe_click` plus the nonzero-row wait;
* `varietyScrapeOk` — `scrape_and_save_table` for the variety view. -/

structure FlowEnv where
  containerPresent : Bool
  containerClickOk : Bool
  containerChangeOk : Bool
  containerScrapeOk : Bool
  containerReturnOk : Bool
  varietyPresent : Bool
  varietyClickOk : Bool
  varietyScrapeOk : Bool
deriving DecidableEq

structure FlowResult where
  scraped_types : List String
  varietyAttempted : Bool
deriving DecidableEq

/-- Model of `handle_single_container_flow` (lines 317-389).  `"container"` is
appended only when the link exists, its click succeeds and its scrape
succeeds (inner `try`, lines 337-341); every other container failure is
caught and the flow proceeds to the variety link regardless.  `"variety"`
is appended right after a successful variety scrape (line 374), before the
fallible back-navigation. -/
def handle_single_container_flow (env : FlowEnv) : FlowResult :=
  let scraped_types := ["summary"]
  let scraped_types :=
    if env.containerPresent && env.containerClickOk && env.containerScrapeOk then
      scraped_types ++ ["container"]
    else scraped_types
  if env.varietyPresent then
    if env.varietyClickOk && env.varietyScrapeOk then
      { scraped_types := scraped_types ++ ["variety"], varietyAttempted := true }
    else
      { scraped_types := scraped_types, varietyAttempted := true }
  else
    { scraped_types := scraped_types, varietyAttempted := false }

/-- Model of `handle_multi_container_flow` (lines 392-457).  With no container link
the flow returns `["summary"]` immediately (lines 404-406).  An exception
anywhere in the container block (click, table-change wait, scrape, or the
back/re-select sequence) returns early without reaching the variety block
(lines 428-430); the scrape's append at line 415 has already happened when
the back-navigation fails. -/
def handle_multi_container_flow (env : FlowEnv) : FlowResult :=
  let scraped_types := ["summary"]
  if !env.containerPresent then
    { scraped_types := scraped_types, varietyAttempted := false }
  else
    if env.containerClickOk && env.containerChangeOk && env.containerScrapeOk then
      let scraped_types := scraped_types ++ ["container"]
      if env.containerReturnOk then
        if env.varietyPresent then
          if env.varietyClickOk && env.varietyScrapeOk then
            { scraped_types := scraped_types ++ ["variety"], varietyAttempted := true }
          else
            { scraped_types := scraped_types, varietyAttempted := true }
        else
          { scraped_types := scraped_types, varietyAttempted := false }
      else
        { scraped_types := scraped_types, varietyAttempted := false }
    else
      { scraped_types := scraped_types, varietyAttempted := false }

/-! ## Checkpoint and completion ledger (lines 45-111)

The checkpoint file holds a `RunState`; the model keeps the fields the
code reads back (`timestamp` and `run_id` are written but never consumed).
`CheckpointFile` is the on-disk state: absent, present but unreadable
(`open`/read raises), present with malformed JSON (`json.load` raises),
or valid. -/

structure RunState where
  current_index : Nat
  current_commodity : Option String
  completed : List String
deriving DecidableEq

inductive CheckpointFile where
  | absent
  | unreadable
  | malformed
  | valid (data : RunState)
deriving DecidableEq

/-- The zeroed default of `load_checkpoint` (line 55). -/
def defaultCheckpoint : RunState :=
  { current_index := 0, current_commodity := none, completed := [] }

/-- Model of `load_checkpoint` (lines 45-55): the file's data when it exists and
parses; the zeroed default otherwise (every read error is caught). -/
def load_checkpoint : CheckpointFile → RunState
  | .valid data => data
  | .absent => defaultCheckpoint
  | .unreadable => defaultCheckpoint
  | .malformed => defaultCheckpoint

/-- The completion ledger (`completed_commodities.json`): a JSON object
mapping commodity name to its scraped link types, modelled as an
association list without duplicate keys. -/
abbrev Ledger := List (String × List String)

/-- Python dict read: the value of the first (only) entry for `name`. -/
def ledgerLookup : Ledger → String → Option (List String)
  | [], _ => none
  | p :: rest, name => if p.1 = name then some p.2 else ledgerLookup rest name

/-- Python dict write `completed[name] = kinds`: replace the existing
entry in place or append a new one at the end. -/
def ledgerInsert : Ledger → String → List String → Ledger
  | [], name, kinds => [(name, kinds)]
  | p :: rest, name, kinds =>
    if p.1 = name then (name, kinds) :: rest
    else p :: ledgerInsert rest name kinds

/-- Model of `is_commodity_complete` (lines 94-102): false when the name has no
ledger entry, else true iff every expected link type is recorded. -/
def is_commodity_complete (ledger : Ledger) (commodity_name : String)
    (expected_link_types : List String) : Bool :=
  match ledgerLookup ledger commodity_name with
  | none => false
  | some scraped_types => expected_link_types.all (fun t => scraped_types.contains t)

/-- The two persisted files. -/
structure Store where
  checkpointFile : CheckpointFile
  ledgerFile : Ledger
deriving DecidableEq

/-- Model of `save_checkpoint` (lines 57-71): overwrite the checkpoint file. -/
def save_checkpoint (index : Nat) (commodity_name : String) (completed : List String)
    (s : Store) : Store :=
  { s with checkpointFile :=
      CheckpointFile.valid ⟨index, some commodity_name, completed⟩ }

/-- Model of `save_completed_commodity` (lines 83-92): load the ledger, set the
entry, write it back. -/
def save_completed_commodity (commodity_name : String) (link_types : List String)
    (s : Store) : Store :=
  { s with ledgerFile := ledgerInsert s.ledgerFile commodity_name link_types }

/-- Model of `cleanup_checkpoint` (lines 104-111): delete the checkpoint file only;
the ledger file is untouched. -/
def cleanup_checkpoint (s : Store) : Store :=
  { s with checkpointFile := .absent }

/-! ## The run driver (`handle_div_links_in_iframe`, lines 460-567)

Per catalog index the loop body is: re-enter the iframe, re-resolve the
selector and read the item's label (the *early phase*, lines 489-497);
skip if the label is in the checkpoint's completed list (501-503); save a
checkpoint at `i - 1` (508); then select, scrape the date, classify,
scrape the summary and run the matching flow (the *late phase*, lines
511-536).  An `ItemOutcome` says how far the browser lets iteration `i`
get:
* `ready (.ok page)` — both phases succeed; `page` carries the summary
  rows the classifier sees and the flow environment;
* `ready .timeout` — a `TimeoutException` escapes the late phase: caught
  at lines 540-546, recovery navigation attempted, loop continues;
* `ready .fatal` — another exception escapes the late phase: caught at
  lines 548-563, checkpoint saved again at `i - 1`, error re-raised;
* `timeoutEarly` — a `TimeoutException` escapes the early phase, before
  any checkpoint write: loop continues;
* `fatalEarly` — another exception escapes the early phase while
  `commodity_name` is still `None`: the `if commodity_name:` guard at
  line 553 skips the checkpoint save, and the error is re-raised. -/

structure ItemPage where
  summaryTable : Option (List String)
  flow : FlowEnv
deriving DecidableEq

inductive LatePhase where
  | ok (page : ItemPage)
  | timeout
  | fatal
deriving DecidableEq

inductive ItemOutcome where
  | ready (late : LatePhase)
  | timeoutEarly
  | fatalEarly
deriving DecidableEq

/-- Outcomes that make the run halt (re-raise). -/
def isFatalOutcome : ItemOutcome → Bool
  | .ready .fatal => true
  | .fatalEarly => true
  | _ => false

/-- The scraped link types of a successfully processed item: classify the
summary table (line 521), then run the matching flow (lines 527-532). -/
def itemScrapedTypes (page : ItemPage) : List String :=
  if (analyze_summary_table page.summaryTable).is_single_container then
    (handle_single_container_flow page.flow).scraped_types
  else
    (handle_multi_container_flow page.flow).scraped_types

/-- Observable trace of one loop iteration. -/
inductive Event where
  | skipped (i : Nat) (name : String)
  | processed (i : Nat) (name : String) (kinds : List String)
  | timedOut (i : Nat) (name : String)
  | timedOutEarly (i : Nat)
  | fatalError (i : Nat) (name : String)
  | fatalEarlyError (i : Nat)
deriving DecidableEq

def eventIndex : Event → Nat
  | .skipped i _ => i
  | .processed i _ _ => i
  | .timedOut i _ => i
  | .timedOutEarly i => i
  | .fatalError i _ => i
  | .fatalEarlyError i => i

/-- The item label an event is about, when one was resolved. -/
def eventName : Event → Option String
  | .skipped _ n => some n
  | .processed _ n _ => some n
  | .timedOut _ n => some n
  | .timedOutEarly _ => none
  | .fatalError _ n => some n
  | .fatalEarlyError _ => none

def eventIsSkip : Event → Bool
  | .skipped _ _ => true
  | _ => false

structure RunResult where
  events : List Event
  completed : List String
  store : Store
  cleanups : Nat
  halted : Bool
deriving DecidableEq

/-- The `for i in range(start_index + 1, option_count)` loop of
`handle_div_links_in_iframe` (lines 484-563) followed by
`cleanup_checkpoint()` (line 566), as structural recursion over the list
of indices still to visit.  `names i` is `options[i].text.strip()`;
`items i` is the browser's behavior on iteration `i`.  `cleanups` counts
`cleanup_checkpoint` invocations. -/
def scrapeLoop (names : Nat → String) (items : Nat → ItemOutcome) :
    List Nat → List String → Store → RunResult
  | [], completed, store =>
    { events := [], completed := completed, store := cleanup_checkpoint store,
      cleanups := 1, halted := false }
  | i :: rest, completed, store =>
    match items i with
    | .fatalEarly =>
      { events := [.fatalEarlyError i], completed := completed, store := store,
        cleanups := 0, halted := true }
    | .timeoutEarly =>
      let r := scrapeLoop names items rest completed store
      { r with events := .timedOutEarly i :: r.events }
    | .ready late =>
      let commodity_name := names i
      if completed.contains commodity_name then
        let r := scrapeLoop names items rest completed store
        { r with events := .skipped i commodity_name :: r.events }
      else
        let store1 := save_checkpoint (i - 1) commodity_name completed store
        match late with
        | .ok page =>
          let scraped_types := itemScrapedTypes page
          let completed1 := completed ++ [commodity_name]
          let store2 := save_completed_commodity commodity_name scraped_types store1
          let r := scrapeLoop names items rest completed1 store2
          { r with events := .processed i commodity_name scraped_types :: r.events }
        | .timeout =>
          let r := scrapeLoop names items rest completed store1
          { r with events := .timedOut i commodity_name :: r.events }
        | .fatal =>
          { events := [.fatalError i commodity_name], completed := completed,
            store := save_checkpoint (i - 1) commodity_name completed store1,
            cleanups := 0, halted := true }

/-- Model of `handle_div_links_in_iframe` (lines 460-567): load the checkpoint,
start at `current_index + 1`, loop to `option_count`. -/
def handle_div_links_in_iframe (names : Nat → String) (items : Nat → ItemOutcome)
    (option_count : Nat) (ckptFile : CheckpointFile) (ledgerFile : Ledger) : RunResult :=
  let checkpoint := load_checkpoint ckptFile
  let start_index := checkpoint.current_index
  let completed_commodities := checkpoint.completed
  scrapeLoop names items (List.range' (start_index + 1) (option_count - (start_index + 1)))
    completed_commodities { checkpointFile := ckptFile, ledgerFile := ledgerFile }

/-! ## Concrete instances used to evaluate the model -/

/-- A flow environment in which every browser step succeeds. -/
def allOkFlow : FlowEnv :=
  { containerPresent := true, containerClickOk := true, containerChangeOk := true,
    containerScrapeOk := true, containerReturnOk := true,
    varietyPresent := true, varietyClickOk := true, varietyScrapeOk := true }

/-- A flow environment whose container link is missing from the page. -/
def noContainerFlow : FlowEnv :=
  { allOkFlow with containerPresent := false }

/-- A flow environment in which the variety sub-view scrape times out. -/
def varietyFailFlow : FlowEnv :=
  { allOkFlow with varietyScrapeOk := false }

/-- A one-data-row summary page (single-result) whose links all work. -/
def demoPage : ItemPage :=
  { summaryTable := some ["one row"], flow := allOkFlow }

/-- A one-data-row summary page whose variety scrape fails. -/
def varietyFailPage : ItemPage :=
  { summaryTable := some ["one row"], flow := varietyFailFlow }

/-- A small catalog: index 1 is "apples", every other index "pears". -/
def demoNames : Nat → String := fun i => if i = 1 then "apples" else "pears"

/-- Browser behavior: every item processes successfully. -/
def demoItemsOk : Nat → ItemOutcome := fun _ => .ready (.ok demoPage)

/-- Browser behavior: every item raises a non-timeout error before its
label is read. -/
def earlyFatalItems : Nat → ItemOutcome := fun _ => .fatalEarly

/-- Browser behavior: every item raises a non-timeout error after its
label is read. -/
def lateFatalItems : Nat → ItemOutcome := fun _ => .ready .fatal

/-- Browser behavior: every item succeeds but its variety scrape fails. -/
def varietyFailItems : Nat → ItemOutcome := fun _ => .ready (.ok varietyFailPage)

/-- A completion ledger recording "apples" as fully captured. -/
def applesDoneLedger : Ledger := [("apples", ["summary", "container", "variety"])]

/-! ## Ledger lemmas -/

theorem ledgerLookup_insert_self (L : Ledger) (n : String) (k : List String) :
    ledgerLookup (ledgerInsert L n k) n = some k := by
  induction L with
  | nil => simp [ledgerInsert, ledgerLookup]
  | cons p rest ih =>
    by_cases h : p.1 = n
    · simp [ledgerInsert, ledgerLookup, h]
    · simp only [ledgerInsert, if_neg h, ledgerLookup, ih]

theorem ledgerLookup_insert_ne (L : Ledger) (n m : String) (k : List String)
    (h : m ≠ n) :
    ledgerLookup (ledgerInsert L n k) m = ledgerLookup L m := by
  induction L with
  | nil => simp [ledgerInsert, ledgerLookup, Ne.symm h]
  | cons p rest ih =>
    by_cases hp : p.1 = n
    · simp [ledgerInsert, ledgerLookup, hp, Ne.symm h]
    · simp only [ledgerInsert, if_neg hp, ledgerLookup, ih]

theorem ledgerLookup_insert_isSome (L : Ledger) (n m : String) (k : List String)
    (h : (ledgerLookup L m).isSome = true) :
    (ledgerLookup (ledgerInsert L n k) m).isSome = true := by
  by_cases hm : m = n
  · subst hm
    simp [ledgerLookup_insert_self]
  · rw [ledgerLookup_insert_ne L n m k hm]
    exact h

/-! ## Classifier lemmas -/

theorem countDataRows_go (rows : List String) (n : Nat) :
    rows.foldl
        (fun data_rows row => if isTotalOrSummaryRow row then data_rows else data_rows + 1) n
      = n + (rows.filter (fun r => !isTotalOrSummaryRow r)).length := by
  induction rows generalizing n with
  | nil => simp
  | cons r rs ih =>
    by_cases h : isTotalOrSummaryRow r
    · simp [List.foldl_cons, List.filter_cons, h, ih]
    · simp [List.foldl_cons, List.filter_cons, h, ih]
      omega

theorem countDataRows_eq (rows : List String) :
    countDataRows rows = (rows.filter (fun r => !isTotalOrSummaryRow r)).length := by
  simpa using countDataRows_go rows 0

/-! ## Driver-loop lemmas -/

theorem scrapeLoop_events_index (names : Nat → String) (items : Nat → ItemOutcome) :
    ∀ (idxs : List Nat) (completed : List String) (store : Store),
      ∀ e ∈ (scrapeLoop names items idxs completed store).events, eventIndex e ∈ idxs := by
  intro idxs
  induction idxs with
  | nil =>
    intro completed store e he
    simp [scrapeLoop] at he
  | cons i rest ih =>
    intro completed store e he
    cases h : items i with
    | fatalEarly =>
      simp [scrapeLoop, h] at he
      subst he
      exact List.mem_cons_self i rest
    | timeoutEarly =>
      simp [scrapeLoop, h] at he
      rcases he with rfl | hmem
      · exact List.mem_cons_self i rest
      · exact List.mem_cons_of_mem i (ih completed store e hmem)
    | ready late =>
      by_cases hc : names i ∈ completed
      · simp [scrapeLoop, h, hc] at he
        rcases he with rfl | hmem
        · exact List.mem_cons_self i rest
        · exact List.mem_cons_of_mem i (ih completed store e hmem)
      · cases late with
        | ok page =>
          simp [scrapeLoop, h, hc] at he
          rcases he with rfl | hmem
          · exact List.mem_cons_self i rest
          · exact List.mem_cons_of_mem i (ih _ _ e hmem)
        | timeout =>
          simp [scrapeLoop, h, hc] at he
          rcases he with rfl | hmem
          · exact List.mem_cons_self i rest
          · exact List.mem_cons_of_mem i (ih _ _ e hmem)
        | fatal =>
          simp [scrapeLoop, h, hc] at he
          subst he
          exact List.mem_cons_self i rest

theorem scrapeLoop_no_reprocess (names : Nat → String) (items : Nat → ItemOutcome)
    (name : String) :
    ∀ (idxs : List Nat) (completed : List String) (store : Store), name ∈ completed →
      ∀ e ∈ (scrapeLoop names items idxs completed store).events,
        eventName e = some name → eventIsSkip e = true := by
  intro idxs
  induction idxs with
  | nil =>
    intro completed store _ e he
    simp [scrapeLoop] at he
  | cons i rest ih =>
    intro completed store hname e he hn
    cases h : items i with
    | fatalEarly =>
      simp [scrapeLoop, h] at he
      subst he
      simp [eventName] at hn
    | timeoutEarly =>
      simp [scrapeLoop, h] at he
      rcases he with rfl | hmem
      · simp [eventName] at hn
      · exact ih completed store hname e hmem hn
    | ready late =>
      by_cases hc : names i ∈ completed
      · simp [scrapeLoop, h, hc] at he
        rcases he with rfl | hmem
        · simp [eventIsSkip]
        · exact ih completed store hname e hmem hn
      · cases late with
        | ok page =>
          simp [scrapeLoop, h, hc] at he
          rcases he with rfl | hmem
          · simp [eventName] at hn
            subst hn
            exact absurd hname hc
          · exact ih _ _ (List.mem_append_left _ hname) e hmem hn
        | timeout =>
          simp [scrapeLoop, h, hc] at he
          rcases he with rfl | hmem
          · simp [eventName] at hn
            subst hn
            exact absurd hname hc
          · exact ih _ _ hname e hmem hn
        | fatal =>
          simp [scrapeLoop, h, hc] at he
          subst he
          simp [eventName] at hn
          subst hn
          exact absurd hname hc

theorem scrapeLoop_no_fatal_not_halted (names : Nat → String) (items : Nat → ItemOutcome) :
    ∀ (idxs : List Nat) (completed : List String) (store : Store),
      (∀ j ∈ idxs, isFatalOutcome (items j) = false) →
      (scrapeLoop names items idxs completed store).halted = false := by
  intro idxs
  induction idxs with
  | nil =>
    intro completed store _
    simp [scrapeLoop]
  | cons i rest ih =>
    intro completed store hno
    have hi : isFatalOutcome (items i) = false := hno i (List.mem_cons_self i rest)
    have hrest : ∀ j ∈ rest, isFatalOutcome (items j) = false :=
      fun j hj => hno j (List.mem_cons_of_mem i hj)
    cases h : items i with
    | fatalEarly =>
      rw [h] at hi
      simp [isFatalOutcome] at hi
    | timeoutEarly =>
      simp [scrapeLoop, h]
      exact ih completed store hrest
    | ready late =>
      by_cases hc : names i ∈ completed
      · simp [scrapeLoop, h, hc]
        exact ih completed store hrest
      · cases late with
        | ok page =>
          simp [scrapeLoop, h, hc]
          exact ih _ _ hrest
        | timeout =>
          simp [scrapeLoop, h, hc]
          exact ih _ _ hrest
        | fatal =>
          rw [h] at hi
          simp [isFatalOutcome] at hi

theorem scrapeLoop_covers (names : Nat → String) (items : Nat → ItemOutcome) :
    ∀ (idxs : List Nat) (completed : List String) (store : Store),
      (∀ j ∈ idxs, isFatalOutcome (items j) = false) →
      ∀ j ∈ idxs, ∃ e ∈ (scrapeLoop names items idxs completed store).events,
        eventIndex e = j := by
  intro idxs
  induction idxs with
  | nil =>
    intro completed store _ j hj
    simp at hj
  | cons i rest ih =>
    intro completed store hno j hj
    have hi : isFatalOutcome (items i) = false := hno i (List.mem_cons_self i rest)
    have hrest : ∀ j' ∈ rest, isFatalOutcome (items j') = false :=
      fun j' hj' => hno j' (List.mem_cons_of_mem i hj')
    rcases List.mem_cons.1 hj with heq | hjrest
    · subst heq
      cases h : items j with
      | fatalEarly =>
        rw [h] at hi
        simp [isFatalOutcome] at hi
      | timeoutEarly =>
        exact ⟨.timedOutEarly j, by simp [scrapeLoop, h], rfl⟩
      | ready late =>
        by_cases hc : names j ∈ completed
        · exact ⟨.skipped j (names j), by simp [scrapeLoop, h, hc], rfl⟩
        · cases late with
          | ok page =>
            exact ⟨.processed j (names j) (itemScrapedTypes page),
              by simp [scrapeLoop, h, hc], rfl⟩
          | timeout =>
            exact ⟨.timedOut j (names j), by simp [scrapeLoop, h, hc], rfl⟩
          | fatal =>
            rw [h] at hi
            simp [isFatalOutcome] at hi
    · cases h : items i with
      | fatalEarly =>
        rw [h] at hi
        simp [isFatalOutcome] at hi
      | timeoutEarly =>
        obtain ⟨e, hmem, hidx⟩ := ih completed store hrest j hjrest
        exact ⟨e, by simp [scrapeLoop, h]; exact Or.inr hmem, hidx⟩
      | ready late =>
        by_cases hc : names i ∈ completed
        · obtain ⟨e, hmem, hidx⟩ := ih completed store hrest j hjrest
          exact ⟨e, by simp [scrapeLoop, h, hc]; exact Or.inr hmem, hidx⟩
        · cases late with
          | ok page =>
            obtain ⟨e, hmem, hidx⟩ := ih (completed ++ [names i])
              (save_completed_commodity (names i) (itemScrapedTypes page)
                (save_checkpoint (i - 1) (names i) completed store)) hrest j hjrest
            exact ⟨e, by simp [scrapeLoop, h, hc]; exact Or.inr hmem, hidx⟩
          | timeout =>
            obtain ⟨e, hmem, hidx⟩ := ih completed
              (save_checkpoint (i - 1) (names i) completed store) hrest j hjrest
            exact ⟨e, by simp [scrapeLoop, h, hc]; exact Or.inr hmem, hidx⟩
          | fatal =>
            rw [h] at hi
            simp [isFatalOutcome] at hi

theorem scrapeLoop_ledger_preserved (names : Nat → String) (items : Nat → ItemOutcome)
    (name : String) :
    ∀ (idxs : List Nat) (completed : List String) (store : Store), name ∈ completed →
      ledgerLookup (scrapeLoop names items idxs completed store).store.ledgerFile name
        = ledgerLookup store.ledgerFile name := by
  intro idxs
  induction idxs with
  | nil =>
    intro completed store _
    simp [scrapeLoop, cleanup_checkpoint]
  | cons i rest ih =>
    intro completed store hname
    cases h : items i with
    | fatalEarly =>
      simp [scrapeLoop, h]
    | timeoutEarly =>
      simp [scrapeLoop, h]
      exact ih completed store hname
    | ready late =>
      by_cases hc : names i ∈ completed
      · simp [scrapeLoop, h, hc]
        exact ih completed store hname
      · have hne : name ≠ names i := fun hh => hc (hh ▸ hname)
        cases late with
        | ok page =>
          simp [scrapeLoop, h, hc]
          rw [ih (completed ++ [names i]) _ (List.mem_append_left _ hname)]
          simp [save_completed_commodity, save_checkpoint]
          exact ledgerLookup_insert_ne _ _ _ _ hne
        | timeout =>
          simp [scrapeLoop, h, hc]
          rw [ih completed _ hname]
          simp [save_checkpoint]
        | fatal =>
          simp [scrapeLoop, h, hc, save_checkpoint]

theorem scrapeLoop_ledger_isSome (names : Nat → String) (items : Nat → ItemOutcome)
    (name : String) :
    ∀ (idxs : List Nat) (completed : List String) (store : Store),
      (ledgerLookup store.ledgerFile name).isSome = true →
      (ledgerLookup (scrapeLoop names items idxs completed store).store.ledgerFile name).isSome
        = true := by
  intro idxs
  induction idxs with
  | nil =>
    intro completed store hsome
    simpa [scrapeLoop, cleanup_checkpoint] using hsome
  | cons i rest ih =>
    intro completed store hsome
    cases h : items i with
    | fatalEarly =>
      simpa [scrapeLoop, h] using hsome
    | timeoutEarly =>
      simp [scrapeLoop, h]
      exact ih completed store hsome
    | ready late =>
      by_cases hc : names i ∈ completed
      · simp [scrapeLoop, h, hc]
        exact ih completed store hsome
      · cases late with
        | ok page =>
          simp [scrapeLoop, h, hc]
          refine ih _ _ ?_
          simp [save_completed_commodity, save_checkpoint]
          exact ledgerLookup_insert_isSome _ _ _ _ hsome
        | timeout =>
          simp [scrapeLoop, h, hc]
          refine ih _ _ ?_
          simpa [save_checkpoint] using hsome
        | fatal =>
          simpa [scrapeLoop, h, hc, save_checkpoint] using hsome

theorem scrapeLoop_cleanup_discipline (names : Nat → String) (items : Nat → ItemOutcome) :
    ∀ (idxs : List Nat) (completed : List String) (store : Store),
      ((scrapeLoop names items idxs completed store).halted = false →
        (scrapeLoop names items idxs completed store).cleanups = 1 ∧
        (scrapeLoop names items idxs completed store).store.checkpointFile = .absent) ∧
      ((scrapeLoop names items idxs completed store).halted = true →
        (scrapeLoop names items idxs completed store).cleanups = 0) := by
  intro idxs
  induction idxs with
  | nil =>
    intro completed store
    simp [scrapeLoop, cleanup_checkpoint]
  | cons i rest ih =>
    intro completed store
    cases h : items i with
    | fatalEarly =>
      simp [scrapeLoop, h]
    | timeoutEarly =>
      simpa [scrapeLoop, h] using ih completed store
    | ready late =>
      by_cases hc : names i ∈ completed
      · simpa [scrapeLoop, h, hc] using ih completed store
      · cases late with
        | ok page =>
          simpa [scrapeLoop, h, hc] using ih _ _
        | timeout =>
          simpa [scrapeLoop, h, hc] using ih _ _
        | fatal =>
          simp [scrapeLoop, h, hc]

/-! ## Flow lemmas -/

theorem variety_requires_scrape (env : FlowEnv) :
    env.varietyScrapeOk = false →
      "variety" ∉ (handle_single_container_flow env).scraped_types ∧
      "variety" ∉ (handle_multi_container_flow env).scraped_types := by
  obtain ⟨cp, cc, cch, cs, cr, vp, vc, vs⟩ := env
  revert cp cc cch cs cr vp vc vs
  decide

theorem summary_mem_flows (env : FlowEnv) :
    "summary" ∈ (handle_single_container_flow env).scraped_types ∧
    "summary" ∈ (handle_multi_container_flow env).scraped_types := by
  obtain ⟨cp, cc, cch, cs, cr, vp, vc, vs⟩ := env
  revert cp cc cch cs cr vp vc vs
  decide

theorem variety_not_mem_itemScrapedTypes (page : ItemPage)
    (h : page.flow.varietyScrapeOk = false) :
    "variety" ∉ itemScrapedTypes page := by
  unfold itemScrapedTypes
  rcases hs : (analyze_summary_table page.summaryTable).is_single_container with _ | _
  · simp only [Bool.false_eq_true, if_false]
    exact (variety_requires_scrape page.flow h).2
  · simp only [if_true]
    exact (variety_requires_scrape page.flow h).1

theorem summary_mem_itemScrapedTypes (page : ItemPage) :
    "summary" ∈ itemScrapedTypes page := by
  unfold itemScrapedTypes
  rcases hs : (analyze_summary_table page.summaryTable).is_single_container with _ | _
  · simp only [Bool.false_eq_true, if_false]
    exact (summary_mem_flows page.flow).2
  · simp only [if_true]
    exact (summary_mem_flows page.flow).1

/-! ## Sanitizer lemmas -/

theorem mem_subSpaceRunsAux (c : Char) :
    ∀ (b : Bool) (l : List Char), c ∈ subSpaceRunsAux b l →
      c = '_' ∨ (c ∈ l ∧ isPySpace c = false) := by
  intro b l
  induction l generalizing b with
  | nil =>
    intro h
    simp [subSpaceRunsAux] at h
  | cons d rest ih =>
    intro h
    by_cases hd : isPySpace d
    · cases b with
      | true =>
        simp only [subSpaceRunsAux, hd, if_true] at h
        rcases ih true h with h1 | ⟨h2, h3⟩
        · exact Or.inl h1
        · exact Or.inr ⟨List.mem_cons_of_mem d h2, h3⟩
      | false =>
        simp only [subSpaceRunsAux, hd, if_true] at h
        rcases List.mem_cons.1 h with rfl | hmem
        · exact Or.inl rfl
        · rcases ih true hmem with h1 | ⟨h2, h3⟩
          · exact Or.inl h1
          · exact Or.inr ⟨List.mem_cons_of_mem d h2, h3⟩
    · simp only [subSpaceRunsAux, hd, if_false] at h
      rcases List.mem_cons.1 h with rfl | hmem
      · right
        refine ⟨List.mem_cons_self c rest, ?_⟩
        simpa using hd
      · rcases ih false hmem with h1 | ⟨h2, h3⟩
        · exact Or.inl h1
        · exact Or.inr ⟨List.mem_cons_of_mem d h2, h3⟩

theorem mem_sanitize_sheet_name (name : String) (c : Char)
    (hc : c ∈ (sanitize_sheet_name name).data) :
    c = '_' ∨ (c ∈ pyLower (pyStrip name.data) ∧ isPySpace c = false
      ∧ (isPyWord c || c = '-') = true) := by
  have h1 : c ∈ subSpaceRuns (removeSpecials (pyLower (pyStrip name.data))) :=
    List.take_subset 100 _ hc
  rcases mem_subSpaceRunsAux c false _ h1 with h2 | ⟨h2, h3⟩
  · exact Or.inl h2
  · right
    have h4 := List.mem_filter.1 h2
    refine ⟨h4.1, h3, ?_⟩
    have h5 := h4.2
    rw [h3] at h5
    simpa using h5

/-! ## Claims -/

/-- C1: the spec's idempotence property fails on the code.  After a clean
completion the checkpoint file is absent, so `load_checkpoint` yields an
empty completed list and the per-item loop's only skip test
(`commodity_name in completed_commodities`, line 501) skips nothing;
`is_commodity_complete` is defined but never called.  Here the ledger
records a superset of every expected kind set for "apples"
(`is_commodity_complete` agrees), yet the run re-processes it. -/
theorem c1_idempotence_violated :
    is_commodity_complete applesDoneLedger "apples" ["summary", "container", "variety"] = true
  ∧ (handle_div_links_in_iframe demoNames demoItemsOk 2 .absent applesDoneLedger).events
      = [Event.processed 1 "apples" ["summary", "container", "variety"]] := by
  constructor
  · decide
  · decide

/-- C2 counterexample: on `"Hass Avocados / Extra!!"` the sanitizer
returns `"hass_avocados_extra"` (the whitespace run left by the removed
`/` collapses to a single `_`), not the claimed
`"hass_avocados__extra"`; and underscores, being word characters for
`\w`, survive the strip, contradicting "strips every character outside
alphanumerics, spaces, and hyphens". -/
theorem c2_sanitize_counterexample :
    sanitize_sheet_name "Hass Avocados / Extra!!" ≠ "hass_avocados__extra"
  ∧ sanitize_sheet_name "Hass Avocados / Extra!!" = "hass_avocados_extra"
  ∧ sanitize_sheet_name "a_b" = "a_b" := by
  refine ⟨by decide, by decide, by decide⟩

/-- C2 (amended): the sanitizer's output is built from the lower-cased,
stripped input: at most 100 characters, every character is a word
character (alphanumeric or underscore) or a hyphen, no whitespace
remains, each character is an underscore (standing for a collapsed
whitespace run) or comes from the lower-cased input, and the spec's
example input yields `"hass_avocados_extra"`. -/
theorem c2_sanitize_spec (name : String) :
    (sanitize_sheet_name name).length ≤ 100
  ∧ (∀ c ∈ (sanitize_sheet_name name).data, (isPyWord c || c = '-') = true)
  ∧ (∀ c ∈ (sanitize_sheet_name name).data, isPySpace c = false)
  ∧ (∀ c ∈ (sanitize_sheet_name name).data, c = '_' ∨ c ∈ pyLower (pyStrip name.data))
  ∧ sanitize_sheet_name "Hass Avocados / Extra!!" = "hass_avocados_extra" := by
  refine ⟨?_, ?_, ?_, ?_, by decide⟩
  · show (List.take 100 _).length ≤ 100
    simp
  · intro c hc
    rcases mem_sanitize_sheet_name name c hc with rfl | ⟨_, _, h⟩
    · decide
    · exact h
  · intro c hc
    rcases mem_sanitize_sheet_name name c hc with rfl | ⟨_, h, _⟩
    · decide
    · exact h
  · intro c hc
    rcases mem_sanitize_sheet_name name c hc with rfl | ⟨h, _, _⟩
    · exact Or.inl rfl
    · exact Or.inr h

/-- C2 witness: the amended sanitization facts evaluated on the spec's
example input. -/
theorem c2_sanitize_spec_witness :
    (sanitize_sheet_name "Hass Avocados / Extra!!").length ≤ 100
  ∧ ('h' = '_' ∨ 'h' ∈ pyLower (pyStrip "Hass Avocados / Extra!!".data)) :=
  ⟨(c2_sanitize_spec "Hass Avocados / Extra!!").1,
   (c2_sanitize_spec "Hass Avocados / Extra!!").2.2.2.1 'h' (by decide)⟩

/-- C3: a run resumed from checkpoint `{current_index := k, completed := L}`
only ever visits catalog indices `≥ k + 1`, and any iteration whose label
is in `L` is a skip event (never processed, timed out or fatal). -/
theorem c3_resume_correctness (names : Nat → String) (items : Nat → ItemOutcome)
    (option_count k : Nat) (cur : Option String) (L : List String) (ledger : Ledger) :
    (∀ e ∈ (handle_div_links_in_iframe names items option_count
        (.valid ⟨k, cur, L⟩) ledger).events, k + 1 ≤ eventIndex e)
  ∧ (∀ name, name ∈ L →
      ∀ e ∈ (handle_div_links_in_iframe names items option_count
          (.valid ⟨k, cur, L⟩) ledger).events,
        eventName e = some name → eventIsSkip e = true) := by
  constructor
  · intro e he
    have h1 := scrapeLoop_events_index names items
      (List.range' (k + 1) (option_count - (k + 1))) L
      { checkpointFile := .valid ⟨k, cur, L⟩, ledgerFile := ledger } e he
    exact (List.mem_range'_1.1 h1).1
  · intro name hnameL e he hn
    exact scrapeLoop_no_reprocess names items name
      (List.range' (k + 1) (option_count - (k + 1))) L
      { checkpointFile := .valid ⟨k, cur, L⟩, ledgerFile := ledger } hnameL e he hn

/-- C3 witness: with checkpoint `{current_index := 1, completed := ["pears"]}`
over a 3-option catalog, the iteration for "pears" is a skip. -/
theorem c3_resume_correctness_witness :
    eventIsSkip (Event.skipped 2 "pears") = true :=
  (c3_resume_correctness demoNames demoItemsOk 3 1 (some "apples") ["pears"] []).2
    "pears" (by decide) (Event.skipped 2 "pears") (by decide) (by decide)

/-- C4: the classifier's row count equals the number of rows whose
lower-cased text contains neither "total" nor "summary", and the item is
classified single-result exactly when that count is at most 1. -/
theorem c4_flow_classification (rows : List String) :
    (analyze_summary_table (some rows)).data_rows
        = (rows.filter (fun r => !isTotalOrSummaryRow r)).length
  ∧ ((analyze_summary_table (some rows)).is_single_container = true
        ↔ (rows.filter (fun r => !isTotalOrSummaryRow r)).length ≤ 1) := by
  have hc := countDataRows_eq rows
  by_cases h : (rows.filter (fun r => !isTotalOrSummaryRow r)).length ≤ 1
  · constructor
    · simp [analyze_summary_table, hc, h]
    · simp [analyze_summary_table, hc, h]
  · constructor
    · simp [analyze_summary_table, hc, h]
    · simp [analyze_summary_table, hc, h]

/-- C4 witness: two data rows plus a total row classify as multi-result. -/
theorem c4_flow_classification_witness :
    (analyze_summary_table (some ["row a", "row b", "Grand Total"])).data_rows = 2
  ∧ (analyze_summary_table (some ["row a", "row b", "Grand Total"])).is_single_container
      = false := by
  have h := c4_flow_classification ["row a", "row b", "Grand Total"]
  refine ⟨h.1.trans (by decide), ?_⟩
  have h2 : ¬ ((["row a", "row b", "Grand Total"].filter
      (fun r => !isTotalOrSummaryRow r)).length ≤ 1) := by decide
  have h3 := fun hb => h2 (h.2.1 hb)
  simpa using h3

/-- C5: when the container link is absent, the multi-result flow returns
exactly `["summary"]` and never reaches the variety link, while the
single-result flow still attempts the variety link when present and, when
its click and scrape succeed, returns `["summary", "variety"]`. -/
theorem c5_subview_asymmetry (env : FlowEnv) (h : env.containerPresent = false) :
    (handle_multi_container_flow env).scraped_types = ["summary"]
  ∧ (handle_multi_container_flow env).varietyAttempted = false
  ∧ (handle_single_container_flow env).varietyAttempted = env.varietyPresent
  ∧ (env.varietyPresent = true → env.varietyClickOk = true → env.varietyScrapeOk = true →
      (handle_single_container_flow env).scraped_types = ["summary", "variety"]) := by
  obtain ⟨cp, cc, cch, cs, cr, vp, vc, vs⟩ := env
  simp only at h
  subst h
  revert cc cch cs cr vp vc vs
  decide

/-- C5 witness: with the container link absent and a working variety
link, the two flows give `["summary"]` and `["summary", "variety"]`. -/
theorem c5_subview_asymmetry_witness :
    (handle_multi_container_flow noContainerFlow).scraped_types = ["summary"]
  ∧ (handle_single_container_flow noContainerFlow).scraped_types = ["summary", "variety"] :=
  ⟨(c5_subview_asymmetry noContainerFlow rfl).1,
   (c5_subview_asymmetry noContainerFlow rfl).2.2.2 rfl rfl rfl⟩

/-- C6 counterexample: a non-timeout error raised while processing the
item at index 1 but before its label is resolved (e.g. a stale-element
error while reading `options[i].text`) halts the run with NO checkpoint
persisted — the `if commodity_name:` guard at line 553 skips the save, so
the file stays absent instead of recording `current_index = 0`. -/
theorem c6_fatal_halt_counterexample :
    (handle_div_links_in_iframe demoNames earlyFatalItems 2 .absent []).halted = true
  ∧ (handle_div_links_in_iframe demoNames earlyFatalItems 2 .absent []).store.checkpointFile
      = CheckpointFile.absent := by
  refine ⟨by decide, by decide⟩

/-- C6 (amended): for every unexpected non-timeout error raised while
processing the item at index `i` *after its label has been resolved*, the
driver persists a checkpoint at `current_index = i - 1` whose completed
list excludes the failed item, halts the run, and a restart from that
checkpoint resumes at index `i` with the failed item not skipped. -/
theorem c6_fatal_halt (names : Nat → String) (items : Nat → ItemOutcome)
    (i : Nat) (rest : List Nat) (completed : List String) (store : Store)
    (hi : 1 ≤ i) (hskip : names i ∉ completed) (hfat : items i = .ready .fatal) :
    (scrapeLoop names items (i :: rest) completed store).halted = true
  ∧ (scrapeLoop names items (i :: rest) completed store).store.checkpointFile
      = CheckpointFile.valid ⟨i - 1, some (names i), completed⟩
  ∧ (scrapeLoop names items (i :: rest) completed store).events
      = [Event.fatalError i (names i)]
  ∧ (load_checkpoint
        (scrapeLoop names items (i :: rest) completed store).store.checkpointFile).current_index
        + 1 = i
  ∧ names i ∉ (load_checkpoint
        (scrapeLoop names items (i :: rest) completed store).store.checkpointFile).completed := by
  have hckpt : (scrapeLoop names items (i :: rest) completed store).store.checkpointFile
      = CheckpointFile.valid ⟨i - 1, some (names i), completed⟩ := by
    simp [scrapeLoop, hfat, hskip, save_checkpoint]
  refine ⟨?_, hckpt, ?_, ?_, ?_⟩
  · simp [scrapeLoop, hfat, hskip]
  · simp [scrapeLoop, hfat, hskip]
  · rw [hckpt]
    simp [load_checkpoint]
    omega
  · rw [hckpt]
    simpa [load_checkpoint] using hskip

/-- C6 witness: a late fatal error on the first item of a fresh run
persists checkpoint index 0, and the restart re-attempts index 1. -/
theorem c6_fatal_halt_witness :
    (scrapeLoop demoNames lateFatalItems [1] [] ⟨.absent, []⟩).halted = true
  ∧ (scrapeLoop demoNames lateFatalItems [1] [] ⟨.absent, []⟩).store.checkpointFile
      = CheckpointFile.valid ⟨0, some "apples", []⟩ := by
  have h := c6_fatal_halt demoNames lateFatalItems 1 [] [] ⟨.absent, []⟩
    (by decide) (by decide) rfl
  exact ⟨h.1, h.2.1⟩

/-- C7: when no item in sight raises a fatal (non-timeout) error, the run
does not halt and every index is visited; a first item that processes
successfully gets a ledger entry with exactly its captured kinds, which
always include "summary" and exclude "variety" whenever the variety
scrape failed (e.g. timed out) — so a variety timeout is contained inside
the item and the loop proceeds. -/
theorem c7_timeout_containment (names : Nat → String) (items : Nat → ItemOutcome)
    (i : Nat) (rest : List Nat) (completed : List String) (store : Store) (page : ItemPage)
    (hnofatal : ∀ j ∈ i :: rest, isFatalOutcome (items j) = false)
    (hok : items i = .ready (.ok page))
    (hnew : names i ∉ completed) :
    (scrapeLoop names items (i :: rest) completed store).halted = false
  ∧ (∀ j ∈ i :: rest, ∃ e ∈ (scrapeLoop names items (i :: rest) completed store).events,
      eventIndex e = j)
  ∧ ledgerLookup (scrapeLoop names items (i :: rest) completed store).store.ledgerFile
      (names i) = some (itemScrapedTypes page)
  ∧ (page.flow.varietyScrapeOk = false → "variety" ∉ itemScrapedTypes page)
  ∧ "summary" ∈ itemScrapedTypes page := by
  refine ⟨scrapeLoop_no_fatal_not_halted names items _ completed store hnofatal,
    scrapeLoop_covers names items _ completed store hnofatal, ?_,
    fun h => variety_not_mem_itemScrapedTypes page h,
    summary_mem_itemScrapedTypes page⟩
  have hmem : names i ∈ completed ++ [names i] :=
    List.mem_append_right _ (List.mem_singleton_self _)
  simp [scrapeLoop, hok, hnew]
  rw [scrapeLoop_ledger_preserved names items (names i) rest (completed ++ [names i]) _ hmem]
  simp [save_completed_commodity, save_checkpoint, ledgerLookup_insert_self]

/-- C7 witness: a run whose only item fails its variety scrape completes
without halting and records `["summary", "container"]` for it. -/
theorem c7_timeout_containment_witness :
    (scrapeLoop demoNames varietyFailItems [1] [] ⟨.absent, []⟩).halted = false
  ∧ ledgerLookup (scrapeLoop demoNames varietyFailItems [1] [] ⟨.absent, []⟩).store.ledgerFile
      "apples" = some ["summary", "container"] := by
  have h := c7_timeout_containment demoNames varietyFailItems 1 [] [] ⟨.absent, []⟩
    varietyFailPage (by decide) rfl (by decide)
  exact ⟨h.1, h.2.2.1⟩

/-- C8: `cleanup_checkpoint` deletes only the checkpoint file and leaves
the ledger file untouched; the loop invokes it exactly once when it
finishes without a fatal error (leaving the checkpoint absent) and never
when it halts; and no ledger entry is ever deleted by the run. -/
theorem c8_checkpoint_only_cleanup (names : Nat → String) (items : Nat → ItemOutcome)
    (idxs : List Nat) (completed : List String) (store : Store) :
    ((scrapeLoop names items idxs completed store).halted = false →
      (scrapeLoop names items idxs completed store).cleanups = 1 ∧
      (scrapeLoop names items idxs completed store).store.checkpointFile = .absent)
  ∧ ((scrapeLoop names items idxs completed store).halted = true →
      (scrapeLoop names items idxs completed store).cleanups = 0)
  ∧ (∀ s : Store, (cleanup_checkpoint s).ledgerFile = s.ledgerFile
      ∧ (cleanup_checkpoint s).checkpointFile = .absent)
  ∧ (∀ name, (ledgerLookup store.ledgerFile name).isSome = true →
      (ledgerLookup (scrapeLoop names items idxs completed store).store.ledgerFile name).isSome
        = true) := by
  refine ⟨(scrapeLoop_cleanup_discipline names items idxs completed store).1,
    (scrapeLoop_cleanup_discipline names items idxs completed store).2,
    fun s => ⟨rfl, rfl⟩,
    fun name h => scrapeLoop_ledger_isSome names items name idxs completed store h⟩

/-- C8 witness: a clean two-item run performs exactly one cleanup, leaves
no checkpoint file, and keeps a pre-existing ledger entry. -/
theorem c8_checkpoint_only_cleanup_witness :
    (scrapeLoop demoNames demoItemsOk [1, 2] [] ⟨.valid ⟨0, none, []⟩,
        [("kept", ["summary"])]⟩).cleanups = 1
  ∧ (scrapeLoop demoNames demoItemsOk [1, 2] [] ⟨.valid ⟨0, none, []⟩,
        [("kept", ["summary"])]⟩).store.checkpointFile = .absent
  ∧ (ledgerLookup (scrapeLoop demoNames demoItemsOk [1, 2] [] ⟨.valid ⟨0, none, []⟩,
        [("kept", ["summary"])]⟩).store.ledgerFile "kept").isSome = true := by
  have h := c8_checkpoint_only_cleanup demoNames demoItemsOk [1, 2] []
    ⟨.valid ⟨0, none, []⟩, [("kept", ["summary"])]⟩
  have h1 := h.1 (by decide)
  exact ⟨h1.1, h1.2, h.2.2.2 "kept" (by decide)⟩

/-- C9: the table parser returns `none` (rather than raising) when the
marked table, its header section or its body section is missing, and the
scrape-and-save operation on an absent or empty parsed table performs no
write and returns the row count captured before scraping. -/
theorem c9_empty_table_handling (page : Option MarkupTable)
    (scraped_date commodity_name link_type run_id : String) :
    table_scraper none = none
  ∧ (∀ t : MarkupTable, t.thead = none ∨ t.tbody = none → table_scraper (some t) = none)
  ∧ (parsedAbsentOrEmpty page = true →
      scrape_and_save_table page scraped_date commodity_name link_type run_id
        = (none, get_table_row_count page)) := by
  refine ⟨rfl, ?_, ?_⟩
  · intro t h
    obtain ⟨th, tb⟩ := t
    rcases h with h | h
    · simp only at h
      subst h
      cases tb <;> rfl
    · simp only at h
      subst h
      cases th <;> rfl
  · intro h
    unfold parsedAbsentOrEmpty at h
    unfold scrape_and_save_table
    cases htp : table_scraper page with
    | none => simp [htp]
    | some df =>
      rw [htp] at h
      simp only at h
      simp [htp, h]

/-- C9 witness: a page whose table lacks its body section parses to
`none`, and scrape-and-save on it writes nothing and returns 0. -/
theorem c9_empty_table_handling_witness :
    table_scraper (some ⟨some ["H"], none⟩) = none
  ∧ scrape_and_save_table (some ⟨some ["H"], none⟩) "2024-05-01" "apples" "summary" "r1"
      = (none, 0) := by
  have h := c9_empty_table_handling (some ⟨some ["H"], none⟩) "2024-05-01" "apples" "summary" "r1"
  exact ⟨h.2.1 ⟨some ["H"], none⟩ (Or.inr rfl), h.2.2 (by decide)⟩

/-- C10: loading the checkpoint is total and returns the zeroed default
state whenever the file is not present-and-valid — i.e. when it is
absent, unreadable, or contains malformed JSON. -/
theorem c10_load_checkpoint_default (f : CheckpointFile)
    (h : ∀ d, f ≠ CheckpointFile.valid d) :
    load_checkpoint f
      = { current_index := 0, current_commodity := none, completed := [] } := by
  cases f with
  | valid d => exact absurd rfl (h d)
  | absent => rfl
  | unreadable => rfl
  | malformed => rfl

/-- C10 witness: a malformed checkpoint file loads as the zeroed default. -/
theorem c10_load_checkpoint_default_witness :
    load_checkpoint CheckpointFile.malformed
      = { current_index := 0, current_commodity := none, completed := [] } :=
  c10_load_checkpoint_default CheckpointFile.malformed
    (by intro d h; exact CheckpointFile.noConfusion h)

end MarketScraper
